import Mathlib

/-!
Verification of the invrat_debias data-wrangling layer: the toxicity dataset
processors and the feature encoder of `src/toxic.py`, and the prediction-merge
script `inv_to_ND.py`.

Shallow embedding conventions:
* CSV files are already-parsed values (`List (List String)` for raw positional
  rows, `DataRow` records for the pandas frames with labeled columns
  `tweet`, `ND_label`, `dialect_argmax`).
* Python exceptions (KeyError, IndexError, ValueError, failed assert) are
  modelled by `Except String`: an exception aborts the whole call, so a call
  that raises returns `Except.error` and emits nothing.
* External capabilities are parameters: the tokenizer (`encode_plus`) is a
  function returning the pair (input_ids, token_type_ids); the `re` regex
  engine behind the three word-list patterns is a `MentionMatchers` record of
  match-count functions; Python `float()` parsing is a
  `String → Except String Float` parameter.
* `transformers.InputExample` has no `env` attribute and `EnvInputExample`
  defaults it to `None`; both are modelled by one structure whose `env` field
  is `Option Int`, `none` marking an absent env.
* Machine integers are `Int` (no overflow is possible in this code's ranges).
-/

/-- One example record: models both `EnvInputExample` (toxic.py lines 40-70)
and `transformers.InputExample` (which lacks `env`; here `env = none`). -/
structure EnvInputExample where
  guid : String
  text_a : String
  text_b : Option String
  label : String
  env : Option Int
deriving Repr, DecidableEq

/-- Resolved label of a feature record: an integer class index for
classification mode or a parsed float for regression mode. -/
inductive FeatureLabel where
  | classification : Nat → FeatureLabel
  | regression : Float → FeatureLabel
deriving Repr

/-- The encoded form of one example (`transformers.InputFeatures`).
`token_type_ids` elements are `Option Int` because line 146/150 of toxic.py
fills the real span with `example.env`, which may be Python `None`. -/
structure InputFeatures where
  input_ids : List Int
  attention_mask : List Int
  token_type_ids : List (Option Int)
  label : FeatureLabel
deriving Repr

/-- The keyword configuration of `glue_convert_examples_to_features`
(toxic.py lines 73-81) together with the label list and output mode that the
loop body consumes. -/
structure EncodeConfig where
  max_length : Nat
  pad_on_left : Bool
  pad_token : Int
  pad_token_segment_id : Int
  mask_padding_with_zero : Bool
  label_list : List String
  output_mode : String

/-- The Python dict comprehension `{label: i for i, label in enumerate(label_list)}`
(toxic.py line 118): on duplicate labels the later index wins, and a missing
key is a KeyError, hence `Option`. -/
def label_map_lookup (label_list : List String) (x : String) : Option Nat :=
  ((label_list.enum.filter (fun p => p.2 = x)).getLast?).map (fun p => p.1)

/-- Label resolution of toxic.py lines 156-161: classification looks the label
string up in the label map (KeyError when absent), regression parses it as a
float via the host `float()` capability, any other mode raises KeyError. -/
def resolve_label (cfg : EncodeConfig) (parse_float : String → Except String Float)
    (label : String) : Except String FeatureLabel :=
  if cfg.output_mode = "classification" then
    match label_map_lookup cfg.label_list label with
    | some i => Except.ok (FeatureLabel.classification i)
    | none => Except.error ("KeyError: " ++ label)
  else if cfg.output_mode = "regression" then
    (parse_float label).map FeatureLabel.regression
  else
    Except.error ("KeyError: " ++ cfg.output_mode)

/-- The padding length of toxic.py line 142, `max_length - len(input_ids)`,
as a Python int (may be negative); `[x] * n` with `n ≤ 0` is `[]`, so uses of
it as a replication count go through `Int.toNat`. -/
def padding_length (cfg : EncodeConfig) (ids_len : Nat) : Int :=
  (cfg.max_length : Int) - (ids_len : Int)

/-- Lines 143-148 of toxic.py for `input_ids`: pad with `pad_token` on the
configured side. -/
def pad_input_ids (cfg : EncodeConfig) (ids : List Int) : List Int :=
  if cfg.pad_on_left then
    List.replicate (padding_length cfg ids.length).toNat cfg.pad_token ++ ids
  else
    ids ++ List.replicate (padding_length cfg ids.length).toNat cfg.pad_token

/-- Lines 139, 145 and 149 of toxic.py for `attention_mask`: the real span is
the configured real-value marker repeated `len(input_ids)` times, the pad span
the opposite marker. -/
def pad_attention_mask (cfg : EncodeConfig) (ids_len : Nat) : List Int :=
  if cfg.pad_on_left then
    List.replicate (padding_length cfg ids_len).toNat
        (if cfg.mask_padding_with_zero then (0 : Int) else 1) ++
      List.replicate ids_len (if cfg.mask_padding_with_zero then (1 : Int) else 0)
  else
    List.replicate ids_len (if cfg.mask_padding_with_zero then (1 : Int) else 0) ++
      List.replicate (padding_length cfg ids_len).toNat
        (if cfg.mask_padding_with_zero then (0 : Int) else 1)

/-- Lines 146 and 150 of toxic.py for `token_type_ids`: the real span is
`[example.env] * len(token_type_ids)` (the example's env, `none` when absent),
the pad span `[pad_token_segment_id] * padding_length`. -/
def pad_token_type_ids (cfg : EncodeConfig) (ids_len tts_len : Nat)
    (env : Option Int) : List (Option Int) :=
  if cfg.pad_on_left then
    List.replicate (padding_length cfg ids_len).toNat (some cfg.pad_token_segment_id) ++
      List.replicate tts_len env
  else
    List.replicate tts_len env ++
      List.replicate (padding_length cfg ids_len).toNat (some cfg.pad_token_segment_id)

/-- The body of the per-example loop of `glue_convert_examples_to_features`
(toxic.py lines 129-175): tokenize, build the three padded arrays, check the
three length asserts in source order, then resolve the label. `tok` is the
`tokenizer.encode_plus` capability returning (input_ids, token_type_ids). -/
def glue_convert_example (cfg : EncodeConfig)
    (tok : String → Option String → Nat → List Int × List Int)
    (parse_float : String → Except String Float)
    (ex : EnvInputExample) : Except String InputFeatures :=
  let inputs := tok ex.text_a ex.text_b cfg.max_length
  let input_ids2 := pad_input_ids cfg inputs.1
  let attention_mask2 := pad_attention_mask cfg inputs.1.length
  let token_type_ids2 := pad_token_type_ids cfg inputs.1.length inputs.2.length ex.env
  if input_ids2.length ≠ cfg.max_length then
    Except.error "AssertionError: Error with input length of input_ids"
  else if attention_mask2.length ≠ cfg.max_length then
    Except.error "AssertionError: Error with input length of attention_mask"
  else if token_type_ids2.length ≠ cfg.max_length then
    Except.error "AssertionError: Error with input length of token_type_ids"
  else
    match resolve_label cfg parse_float ex.label with
    | Except.ok lab =>
        Except.ok ⟨input_ids2, attention_mask2, token_type_ids2, lab⟩
    | Except.error e => Except.error e

/-- The whole encoder loop (toxic.py lines 120-175, list-input path): one
feature record appended per example, in input order; a raised exception aborts
the call. -/
def glue_convert_examples_to_features (cfg : EncodeConfig)
    (tok : String → Option String → Nat → List Int × List Int)
    (parse_float : String → Except String Float) :
    List EnvInputExample → Except String (List InputFeatures)
  | [] => Except.ok []
  | e :: rest =>
    match glue_convert_example cfg tok parse_float e with
    | Except.error s => Except.error s
    | Except.ok f =>
      match glue_convert_examples_to_features cfg tok parse_float rest with
      | Except.error s => Except.error s
      | Except.ok fs => Except.ok (f :: fs)

/-- One row of the pandas frames with labeled columns, as consumed by the
`zip(df.tweet, df.ND_label, df.dialect_argmax)` loops. -/
structure DataRow where
  tweet : String
  ND_label : Int
  dialect_argmax : String
deriving Repr, DecidableEq

/-- `"%s-%s" % (set_type, i)`: the guid constructed from split name and row
index. -/
def mk_guid (set_type : String) (i : Nat) : String :=
  set_type ++ "-" ++ toString i

/-- The class attribute `ToxicEnvProcessor.env2id = {"aav":0, "hispanic":1,
"white":2, "other":3}` (toxic.py line 252); `none` is the KeyError case. -/
def env2id (s : String) : Option Int :=
  if s = "aav" then some 0
  else if s = "hispanic" then some 1
  else if s = "white" then some 2
  else if s = "other" then some 3
  else none

/-- Match-count capability of the three compiled word-list regexes of
`ToxicEnvProcessor` (toxic.py lines 258-260): each field gives
`len(pattern.findall(text))` for the harmless-minority (`idtyRe`),
offensive-minority-reference (`oiRe`) and offensive-not-minority (`oniRe`)
patterns. The regex engine and the word-list CSV are external. -/
structure MentionMatchers where
  idtyRe : String → Nat
  oiRe : String → Nat
  oniRe : String → Nat

/-- The mention-mode group tag (toxic.py lines 316-324): index of the first
word list with at least one match, in the order harmless-minority,
offensive-minority-reference, offensive-not-minority; 3 when none match. -/
def mention_env (m : MentionMatchers) (text : String) : Int :=
  if 0 < m.idtyRe text then 0
  else if 0 < m.oiRe text then 1
  else if 0 < m.oniRe text then 2
  else 3

/-- The per-row env computation of `ToxicEnvProcessor._create_examples`
(toxic.py lines 310-326): dialect-mode dict lookup (KeyError when absent),
aae-mode comparison against the literal string "aae", mention-mode word-list
matching, and `raise ValueError("False Env Type: " + env_type)` otherwise. -/
def row_env (m : MentionMatchers) (env_type : String) (line : DataRow) :
    Except String Int :=
  if env_type = "dialect" then
    match env2id line.dialect_argmax with
    | some v => Except.ok v
    | none => Except.error ("KeyError: " ++ line.dialect_argmax)
  else if env_type = "aae" then
    Except.ok (if line.dialect_argmax = "aae" then 1 else 0)
  else if env_type = "mention" then
    Except.ok (mention_env m line.tweet)
  else
    Except.error ("ValueError: False Env Type: " ++ env_type)

/-- The enumerate loop of `ToxicEnvProcessor._create_examples` (toxic.py
lines 303-329), generalized over the running row index `i`: no header skip
(pandas already consumed the header), `guid = "%s-%s" % (set_type, i)` with
`i` counting from 0, `label = str(line[1])`, env per `row_env`. -/
def envCreateAux (m : MentionMatchers) (set_type env_type : String) :
    Nat → List DataRow → Except String (List EnvInputExample)
  | _, [] => Except.ok []
  | i, line :: rest =>
    match row_env m env_type line with
    | Except.error s => Except.error s
    | Except.ok env =>
      match envCreateAux m set_type env_type (i + 1) rest with
      | Except.error s => Except.error s
      | Except.ok es =>
        Except.ok (⟨mk_guid set_type i, line.tweet, none, toString line.ND_label,
                    some env⟩ :: es)

/-- `ToxicEnvProcessor._create_examples` on a whole frame. -/
def toxicEnv_create_examples (m : MentionMatchers) (df : List DataRow)
    (set_type env_type : String) : Except String (List EnvInputExample) :=
  envCreateAux m set_type env_type 0 df

/-- The enumerate loop of `ToxicNewProcessor._create_examples` (toxic.py
lines 239-247): labeled columns, no header skip, index from 0, emits
`InputExample` records (no env). `ToxicDavisonProcessor._create_examples`
(lines 635-643) is textually identical. -/
def toxicNewCreateAux (set_type : String) : Nat → List DataRow → List EnvInputExample
  | _, [] => []
  | i, line :: rest =>
    ⟨mk_guid set_type i, line.tweet, none, toString line.ND_label, none⟩ ::
      toxicNewCreateAux set_type (i + 1) rest

/-- `ToxicNewProcessor._create_examples` on a whole frame. -/
def toxicNew_create_examples (df : List DataRow) (set_type : String) :
    List EnvInputExample :=
  toxicNewCreateAux set_type 0 df

/-- Python `line[j]` on a list: IndexError when out of range. -/
def getCell (line : List String) (j : Nat) : Except String String :=
  if h : j < line.length then Except.ok (line.get ⟨j, h⟩)
  else Except.error "IndexError"

/-- Python `line[-j]` (negative index, `j ≥ 1`): `line[len - j]`, IndexError
when `j` exceeds the length. -/
def getCellNeg (line : List String) (j : Nat) : Except String String :=
  if h : 1 ≤ j ∧ j ≤ line.length then
    Except.ok (line.get ⟨line.length - j, by omega⟩)
  else Except.error "IndexError"

/-- The loop of `ToxicProcessor._create_examples` (toxic.py lines 374-384),
generalized over the running row index: skip row 0 (header), `text_a =
line[-2]`, `label = line[-1]`, guid index = raw row index (so the first data
row gets index 1). `ToxicTransProcessor._create_examples` (lines 429-439),
`ToxicTransreProcessor._create_examples` (497-507) and the dev/test paths are
textually identical up to the example class. -/
def toxicCreateAux (set_type : String) :
    Nat → List (List String) → Except String (List EnvInputExample)
  | _, [] => Except.ok []
  | i, line :: rest =>
    if i = 0 then toxicCreateAux set_type (i + 1) rest
    else
      match getCellNeg line 2 with
      | Except.error s => Except.error s
      | Except.ok text_a =>
        match getCellNeg line 1 with
        | Except.error s => Except.error s
        | Except.ok label =>
          match toxicCreateAux set_type (i + 1) rest with
          | Except.error s => Except.error s
          | Except.ok es =>
            Except.ok (⟨mk_guid set_type i, text_a, none, label, none⟩ :: es)

/-- `ToxicProcessor._create_examples` on a whole raw-row file. -/
def toxic_create_examples (lines : List (List String)) (set_type : String) :
    Except String (List EnvInputExample) :=
  toxicCreateAux set_type 0 lines

/-- The loop of `ToxicTransProcessor._create_examples_trans` (toxic.py lines
441-453), generalized over the running row index: skip row 0, `text_a =
line[17]`, `text_trans = line[18]`, `label = str(int(float(line[3])))` (the
numeric conversion chain is the `label_conv` capability, ValueError on a
malformed decimal), and two consecutive examples per row sharing guid and
label, original text first. -/
def transCreateAux (label_conv : String → Except String String) (set_type : String) :
    Nat → List (List String) → Except String (List EnvInputExample)
  | _, [] => Except.ok []
  | i, line :: rest =>
    if i = 0 then transCreateAux label_conv set_type (i + 1) rest
    else
      match getCell line 17 with
      | Except.error s => Except.error s
      | Except.ok text_a =>
        match getCell line 18 with
        | Except.error s => Except.error s
        | Except.ok text_trans =>
          match getCell line 3 with
          | Except.error s => Except.error s
          | Except.ok c3 =>
            match label_conv c3 with
            | Except.error s => Except.error s
            | Except.ok label =>
              match transCreateAux label_conv set_type (i + 1) rest with
              | Except.error s => Except.error s
              | Except.ok es =>
                Except.ok (⟨mk_guid set_type i, text_a, none, label, none⟩ ::
                           ⟨mk_guid set_type i, text_trans, none, label, none⟩ :: es)

/-- `ToxicTransProcessor._create_examples_trans` on a whole raw-row file. -/
def toxicTrans_create_examples_trans (label_conv : String → Except String String)
    (lines : List (List String)) (set_type : String) :
    Except String (List EnvInputExample) :=
  transCreateAux label_conv set_type 0 lines

/-- The loop of `ToxicEvalProcessor._create_examples` (toxic.py lines
565-577), generalized over the running row index: skip row 0, `text_a =
line[9]`, `text_a_trans = line[11]`, `label = line[10]`, two consecutive
examples per row sharing guid and label, original first. -/
def evalCreateAux (set_type : String) :
    Nat → List (List String) → Except String (List EnvInputExample)
  | _, [] => Except.ok []
  | i, line :: rest =>
    if i = 0 then evalCreateAux set_type (i + 1) rest
    else
      match getCell line 9 with
      | Except.error s => Except.error s
      | Except.ok text_a =>
        match getCell line 11 with
        | Except.error s => Except.error s
        | Except.ok text_a_trans =>
          match getCell line 10 with
          | Except.error s => Except.error s
          | Except.ok label =>
            match evalCreateAux set_type (i + 1) rest with
            | Except.error s => Except.error s
            | Except.ok es =>
              Except.ok (⟨mk_guid set_type i, text_a, none, label, none⟩ ::
                         ⟨mk_guid set_type i, text_a_trans, none, label, none⟩ :: es)

/-- `ToxicEvalProcessor._create_examples` on a whole raw-row file. -/
def toxicEval_create_examples (lines : List (List String)) (set_type : String) :
    Except String (List EnvInputExample) :=
  evalCreateAux set_type 0 lines

/-- Python `str.split('\t')` on the character list: split at every tab, no
collapsing of adjacent separators (structural recursion, so it evaluates). -/
def split_tab_chars : List Char → List (List Char)
  | [] => [[]]
  | c :: rest =>
    if c = '\t' then [] :: split_tab_chars rest
    else
      match split_tab_chars rest with
      | [] => [[c]]
      | w :: ws => (c :: w) :: ws

/-- Python `p0.split('\t')`. -/
def split_tab (s : String) : List String :=
  (split_tab_chars s.data).map (fun cs => String.mk cs)

/-- The loop of `inv_to_ND.py` lines 10-13, generalized over the running index
`i` (which starts at 1 in `range(1, len(c))`): `pred = preds[i-1][0].split('\t')`,
append `pred[1]` and `pred[2]` to row `i`; any IndexError aborts the script
before it writes anything. -/
def invAux (preds : List (List String)) :
    Nat → List (List String) → Except String (List (List String))
  | _, [] => Except.ok []
  | i, row :: rest =>
    match (if h : i - 1 < preds.length then Except.ok (preds.get ⟨i - 1, h⟩)
           else Except.error "IndexError" : Except String (List String)) with
    | Except.error s => Except.error s
    | Except.ok predRow =>
      match getCell predRow 0 with
      | Except.error s => Except.error s
      | Except.ok p0 =>
        match getCell (split_tab p0) 1 with
        | Except.error s => Except.error s
        | Except.ok f1 =>
          match getCell (split_tab p0) 2 with
          | Except.error s => Except.error s
          | Except.ok f2 =>
            match invAux preds (i + 1) rest with
            | Except.error s => Except.error s
            | Except.ok rest2 => Except.ok ((row ++ [f1, f2]) :: rest2)

/-- The whole `inv_to_ND.py` script on parsed inputs: `preds` is the parsed
predictions CSV (argv 1), `c` the parsed base records CSV (argv 2); the result
is the list of rows written to the output CSV (argv 3). `c[0].append` on an
empty file is an IndexError. -/
def inv_to_ND (preds c : List (List String)) : Except String (List (List String)) :=
  match c with
  | [] => Except.error "IndexError"
  | hdr :: rest =>
    match invAux preds 1 rest with
    | Except.error s => Except.error s
    | Except.ok rest2 => Except.ok ((hdr ++ ["invariant", "variant"]) :: rest2)

/-! ## Helper lemmas about the encoder -/

lemma encode_ok_spec (cfg : EncodeConfig)
    (tok : String → Option String → Nat → List Int × List Int)
    (pf : String → Except String Float) (ex : EnvInputExample) (f : InputFeatures)
    (ids tts : List Int) (hids : tok ex.text_a ex.text_b cfg.max_length = (ids, tts))
    (h : glue_convert_example cfg tok pf ex = Except.ok f) :
    ∃ lab, resolve_label cfg pf ex.label = Except.ok lab ∧
      f = ⟨pad_input_ids cfg ids, pad_attention_mask cfg ids.length,
           pad_token_type_ids cfg ids.length tts.length ex.env, lab⟩ ∧
      f.input_ids.length = cfg.max_length ∧ f.attention_mask.length = cfg.max_length ∧
      f.token_type_ids.length = cfg.max_length := by
  unfold glue_convert_example at h
  rw [hids] at h
  simp only at h
  split at h
  · simp at h
  split at h
  · simp at h
  split at h
  · simp at h
  rename_i h1 h2 h3
  split at h
  · rename_i lab hlab
    cases h
    exact ⟨lab, hlab, rfl, by simpa using h1, by simpa using h2, by simpa using h3⟩
  · simp at h

lemma pad_input_ids_length (cfg : EncodeConfig) (ids : List Int)
    (h : ids.length ≤ cfg.max_length) :
    (pad_input_ids cfg ids).length = cfg.max_length := by
  unfold pad_input_ids padding_length
  split <;> simp <;> omega

lemma pad_attention_mask_length (cfg : EncodeConfig) (ids_len : Nat)
    (h : ids_len ≤ cfg.max_length) :
    (pad_attention_mask cfg ids_len).length = cfg.max_length := by
  unfold pad_attention_mask padding_length
  split <;> simp <;> omega

lemma pad_token_type_ids_length (cfg : EncodeConfig) (ids_len tts_len : Nat)
    (env : Option Int) (h : ids_len ≤ cfg.max_length) (htt : tts_len = ids_len) :
    (pad_token_type_ids cfg ids_len tts_len env).length = cfg.max_length := by
  unfold pad_token_type_ids padding_length
  split <;> simp <;> omega

lemma encode_success (cfg : EncodeConfig)
    (tok : String → Option String → Nat → List Int × List Int)
    (pf : String → Except String Float) (ex : EnvInputExample)
    (ids tts : List Int) (lab : FeatureLabel)
    (hids : tok ex.text_a ex.text_b cfg.max_length = (ids, tts))
    (hlen : ids.length ≤ cfg.max_length) (htt : tts.length = ids.length)
    (hlab : resolve_label cfg pf ex.label = Except.ok lab) :
    glue_convert_example cfg tok pf ex =
      Except.ok ⟨pad_input_ids cfg ids, pad_attention_mask cfg ids.length,
                 pad_token_type_ids cfg ids.length tts.length ex.env, lab⟩ := by
  unfold glue_convert_example
  rw [hids]
  simp only [pad_input_ids_length cfg ids hlen,
    pad_attention_mask_length cfg ids.length hlen,
    pad_token_type_ids_length cfg ids.length tts.length ex.env hlen htt,
    ne_eq, not_true_eq_false, if_false, hlab]

/-! ## Concrete instances used by witnesses and counterexamples -/

/-- A concrete tokenizer capability: every text encodes to the two tokens
`[101, 7]` with token type ids `[0, 0]`. -/
def tokC : String → Option String → Nat → List Int × List Int :=
  fun _ _ _ => ([101, 7], [0, 0])

/-- A concrete `float()` capability (never consulted in classification
mode). -/
def pfC : String → Except String Float :=
  fun _ => Except.error "ValueError"

/-- A concrete encoder configuration: `max_length = 4`, right padding,
`pad_token = 0`, `pad_token_segment_id = 0`, mask polarity 1-for-real,
label list `["0", "1"]`, classification mode. -/
def cfgC : EncodeConfig := ⟨4, false, 0, 0, true, ["0", "1"], "classification"⟩

/-- A concrete environment-tagged example. -/
def exC : EnvInputExample := ⟨"train-0", "hello world", none, "0", some 2⟩

/-- A concrete example with no env (as built by `ToxicProcessor`, whose
`EnvInputExample(...)` call leaves `env=None`). -/
def exN : EnvInputExample := ⟨"train-1", "hello world", none, "0", none⟩

/-! ## Claims -/

/-- C1: for every example encoded with a given `max_length`, if the tokenizer
returns at most `max_length` token ids (with aligned `token_type_ids`), the
emitted `input_ids`, `attention_mask` and `token_type_ids` each have length
exactly `max_length`; a violated length makes `glue_convert_example` raise the
assertion (return `Except.error`), so no feature record with a wrong length is
ever emitted (first conjunct: every emitted record has all three lengths equal
to `max_length`; second conjunct: encoding succeeds under the precondition). -/
theorem c1_encoder_length_invariant :
    (∀ cfg tok pf ex f, glue_convert_example cfg tok pf ex = Except.ok f →
       f.input_ids.length = cfg.max_length ∧
       f.attention_mask.length = cfg.max_length ∧
       f.token_type_ids.length = cfg.max_length) ∧
    (∀ cfg tok pf ex ids tts lab,
       tok ex.text_a ex.text_b cfg.max_length = (ids, tts) →
       ids.length ≤ cfg.max_length → tts.length = ids.length →
       resolve_label cfg pf ex.label = Except.ok lab →
       ∃ f, glue_convert_example cfg tok pf ex = Except.ok f) := by
  constructor
  · intro cfg tok pf ex f h
    obtain ⟨lab, _, _, hl⟩ :=
      encode_ok_spec cfg tok pf ex f (tok ex.text_a ex.text_b cfg.max_length).1
        (tok ex.text_a ex.text_b cfg.max_length).2 rfl h
    exact hl
  · intro cfg tok pf ex ids tts lab hids hlen htt hlab
    exact ⟨_, encode_success cfg tok pf ex ids tts lab hids hlen htt hlab⟩

/-- Witness for C1 at a concrete input: the hypotheses hold for `cfgC`,
`tokC`, `exC`, and the emitted record has all three lengths equal to 4. -/
theorem c1_encoder_length_invariant_witness :
    ∃ f, glue_convert_example cfgC tokC pfC exC = Except.ok f ∧
      f.input_ids.length = cfgC.max_length ∧
      f.attention_mask.length = cfgC.max_length ∧
      f.token_type_ids.length = cfgC.max_length := by
  obtain ⟨f, hf⟩ :=
    c1_encoder_length_invariant.2 cfgC tokC pfC exC [101, 7] [0, 0]
      (FeatureLabel.classification 0) rfl (by decide) (by decide) rfl
  exact ⟨f, hf, c1_encoder_length_invariant.1 cfgC tokC pfC exC f hf⟩

lemma pad_tt_get_right (cfg : EncodeConfig) (hpad : cfg.pad_on_left = false)
    (ids_len tts_len : Nat) (env : Option Int) (j : Nat)
    (hj : j < (pad_token_type_ids cfg ids_len tts_len env).length) :
    (pad_token_type_ids cfg ids_len tts_len env).get ⟨j, hj⟩ =
      if j < tts_len then env else some cfg.pad_token_segment_id := by
  have he : pad_token_type_ids cfg ids_len tts_len env =
      List.replicate tts_len env ++
        List.replicate (padding_length cfg ids_len).toNat
          (some cfg.pad_token_segment_id) := by
    simp [pad_token_type_ids, hpad]
  have hj2 := hj
  rw [he] at hj2
  simp only [List.length_append, List.length_replicate] at hj2
  by_cases hlt : j < tts_len
  · rw [if_pos hlt]
    simp only [List.get_eq_getElem, he]
    rw [List.getElem_append_left (by simp [hlt])]
    simp
  · rw [if_neg hlt]
    simp only [List.get_eq_getElem, he]
    rw [List.getElem_append_right (by simp; omega)]
    simp

lemma pad_tt_get_left (cfg : EncodeConfig) (hpad : cfg.pad_on_left = true)
    (ids_len tts_len : Nat) (env : Option Int) (j : Nat)
    (hj : j < (pad_token_type_ids cfg ids_len tts_len env).length) :
    (pad_token_type_ids cfg ids_len tts_len env).get ⟨j, hj⟩ =
      if j < (padding_length cfg ids_len).toNat then some cfg.pad_token_segment_id
      else env := by
  have he : pad_token_type_ids cfg ids_len tts_len env =
      List.replicate (padding_length cfg ids_len).toNat
          (some cfg.pad_token_segment_id) ++ List.replicate tts_len env := by
    simp [pad_token_type_ids, hpad]
  have hj2 := hj
  rw [he] at hj2
  simp only [List.length_append, List.length_replicate] at hj2
  by_cases hlt : j < (padding_length cfg ids_len).toNat
  · rw [if_pos hlt]
    simp only [List.get_eq_getElem, he]
    rw [List.getElem_append_left (by simp [hlt])]
    simp
  · rw [if_neg hlt]
    simp only [List.get_eq_getElem, he]
    rw [List.getElem_append_right (by simp; omega)]
    simp

/-- C2 counterexample: the claim says that when `env` is absent the real span
of `token_type_ids` is filled with the configured `pad_token_segment_id`. On
the code it is filled with `example.env` itself, i.e. with Python `None`: for
the env-less example `exN` under `cfgC` (whose `pad_token_segment_id` is 0)
the emitted real span holds `none`, not `some 0`. -/
theorem c2_counterexample_env_absent :
    glue_convert_example cfgC tokC pfC exN =
      Except.ok ⟨[101, 7, 0, 0], [1, 1, 0, 0],
                 [none, none, some 0, some 0], FeatureLabel.classification 0⟩ ∧
    (none : Option Int) ≠ some cfgC.pad_token_segment_id := by
  exact ⟨rfl, by decide⟩

/-- C2 (amended): for every emitted feature record, the real (non-padded) span
of `token_type_ids` is filled with the example's `env` value itself — `none`
(Python `None`) when env is absent, never the configured constant segment id —
and the padded span is filled with `pad_token_segment_id` on the configured
side. -/
theorem c2_token_type_ids_fill (cfg : EncodeConfig)
    (tok : String → Option String → Nat → List Int × List Int)
    (pf : String → Except String Float) (ex : EnvInputExample) (f : InputFeatures)
    (ids tts : List Int) (hids : tok ex.text_a ex.text_b cfg.max_length = (ids, tts))
    (hok : glue_convert_example cfg tok pf ex = Except.ok f) :
    ∀ j (hj : j < f.token_type_ids.length),
      f.token_type_ids.get ⟨j, hj⟩ =
        if cfg.pad_on_left then
          if j < (padding_length cfg ids.length).toNat then
            some cfg.pad_token_segment_id
          else ex.env
        else
          if j < tts.length then ex.env else some cfg.pad_token_segment_id := by
  obtain ⟨lab, _, hf, _⟩ := encode_ok_spec cfg tok pf ex f ids tts hids hok
  subst hf
  intro j hj
  by_cases hpad : cfg.pad_on_left = true
  · simp only [hpad, if_true]
    exact pad_tt_get_left cfg hpad ids.length tts.length ex.env j hj
  · have hpad2 : cfg.pad_on_left = false := by
      simpa using hpad
    simp only [hpad2, Bool.false_eq_true, if_false]
    exact pad_tt_get_right cfg hpad2 ids.length tts.length ex.env j hj

/-- Witness for C2 (amended) at a concrete input: under `cfgC`/`tokC` the
example `exC` (env = 2) is encoded with real span `some 2` and padded span
`some 0`. -/
theorem c2_token_type_ids_fill_witness :
    glue_convert_example cfgC tokC pfC exC =
      Except.ok ⟨[101, 7, 0, 0], [1, 1, 0, 0],
                 [some 2, some 2, some 0, some 0], FeatureLabel.classification 0⟩ ∧
    [some (2 : Int), some 2, some 0, some 0].get ⟨0, by decide⟩ = exC.env ∧
    [some (2 : Int), some 2, some 0, some 0].get ⟨3, by decide⟩ =
      some cfgC.pad_token_segment_id := by
  have hok : glue_convert_example cfgC tokC pfC exC =
      Except.ok ⟨[101, 7, 0, 0], [1, 1, 0, 0],
                 [some 2, some 2, some 0, some 0], FeatureLabel.classification 0⟩ := rfl
  refine ⟨hok, ?_, ?_⟩
  · have h := c2_token_type_ids_fill cfgC tokC pfC exC _ [101, 7] [0, 0] rfl hok
      0 (by decide)
    simpa using h
  · have h := c2_token_type_ids_fill cfgC tokC pfC exC _ [101, 7] [0, 0] rfl hok
      3 (by decide)
    simpa using h

/-! ## Environment-aware processor lemmas -/

lemma row_env_mention (m : MentionMatchers) (line : DataRow) :
    row_env m "mention" line = Except.ok (mention_env m line.tweet) := rfl

lemma row_env_aae (m : MentionMatchers) (line : DataRow) :
    row_env m "aae" line =
      Except.ok (if line.dialect_argmax = "aae" then 1 else 0) := rfl

lemma envCreateAux_total_spec (m : MentionMatchers) (st et : String)
    (f : DataRow → Int) (hrow : ∀ line, row_env m et line = Except.ok (f line)) :
    ∀ (df : List DataRow) (i : Nat), ∃ es,
      envCreateAux m st et i df = Except.ok es ∧
      es.length = df.length ∧
      ∀ k (hk : k < es.length) (hk2 : k < df.length),
        es.get ⟨k, hk⟩ = ⟨mk_guid st (i + k), (df.get ⟨k, hk2⟩).tweet, none,
          toString (df.get ⟨k, hk2⟩).ND_label, some (f (df.get ⟨k, hk2⟩))⟩ := by
  intro df
  induction df with
  | nil =>
    intro i
    exact ⟨[], rfl, rfl, by intro k hk; simp at hk⟩
  | cons line rest ih =>
    intro i
    obtain ⟨es, h1, h2, h3⟩ := ih (i + 1)
    refine ⟨⟨mk_guid st i, line.tweet, none, toString line.ND_label,
      some (f line)⟩ :: es, ?_, by simpa using h2, ?_⟩
    · unfold envCreateAux
      rw [hrow line, h1]
    · intro k hk hk2
      match k with
      | 0 => simp
      | k + 1 =>
        have hk3 : k < es.length := by simpa using hk
        have hk4 : k < rest.length := by simpa using hk2
        have := h3 k hk3 hk4
        simpa [Nat.add_assoc, Nat.add_comm 1 k] using this

lemma envCreateAux_ok_spec (m : MentionMatchers) (st et : String) :
    ∀ (df : List DataRow) (i : Nat) (es : List EnvInputExample),
      envCreateAux m st et i df = Except.ok es →
      es.length = df.length ∧
      ∀ k (hk : k < es.length) (hk2 : k < df.length),
        ∃ v, row_env m et (df.get ⟨k, hk2⟩) = Except.ok v ∧
          es.get ⟨k, hk⟩ = ⟨mk_guid st (i + k), (df.get ⟨k, hk2⟩).tweet, none,
            toString (df.get ⟨k, hk2⟩).ND_label, some v⟩ := by
  intro df
  induction df with
  | nil =>
    intro i es h
    cases h
    exact ⟨rfl, by intro k hk; simp at hk⟩
  | cons line rest ih =>
    intro i es h
    unfold envCreateAux at h
    split at h
    · simp at h
    split at h
    · simp at h
    rename_i v hv scrut2 es2 hes2
    cases h
    obtain ⟨h2, h3⟩ := ih (i + 1) es2 hes2
    refine ⟨by simpa using h2, ?_⟩
    intro k hk hk2
    match k with
    | 0 => exact ⟨v, hv, by simp⟩
    | k + 1 =>
      have hk3 : k < es2.length := by simpa using hk
      have hk4 : k < rest.length := by simpa using hk2
      obtain ⟨w, hw1, hw2⟩ := h3 k hk3 hk4
      exact ⟨w, by simpa using hw1,
        by simpa [Nat.add_assoc, Nat.add_comm 1 k] using hw2⟩

lemma envCreateAux_error_of_row_error (m : MentionMatchers) (st et : String) :
    ∀ (df : List DataRow) (i : Nat),
      (∃ line ∈ df, ∃ msg, row_env m et line = Except.error msg) →
      ∃ msg, envCreateAux m st et i df = Except.error msg := by
  intro df
  induction df with
  | nil =>
    intro i h
    simp at h
  | cons line rest ih =>
    intro i h
    rcases hh : row_env m et line with msg | v
    · refine ⟨msg, ?_⟩
      unfold envCreateAux
      rw [hh]
    · obtain ⟨line2, hmem, msg2, hmsg2⟩ := h
      rcases List.mem_cons.mp hmem with heq | hmem2
      · subst heq
        rw [hh] at hmsg2
        simp at hmsg2
      · obtain ⟨msg3, hmsg3⟩ := ih (i + 1) ⟨line2, hmem2, msg2, hmsg2⟩
        refine ⟨msg3, ?_⟩
        unfold envCreateAux
        rw [hh, hmsg3]

lemma row_env_dialect_ok_iff (m : MentionMatchers) (line : DataRow) (v : Int) :
    row_env m "dialect" line = Except.ok v ↔
      env2id line.dialect_argmax = some v := by
  unfold row_env
  rcases h : env2id line.dialect_argmax with _ | w <;> simp [h]

lemma row_env_dialect_error (m : MentionMatchers) (line : DataRow)
    (h : env2id line.dialect_argmax = none) :
    row_env m "dialect" line =
      Except.error ("KeyError: " ++ line.dialect_argmax) := by
  unfold row_env
  rw [h]
  rfl

lemma row_env_bad_mode (m : MentionMatchers) (et : String) (line : DataRow)
    (h1 : et ≠ "dialect") (h2 : et ≠ "aae") (h3 : et ≠ "mention") :
    row_env m et line = Except.error ("ValueError: False Env Type: " ++ et) := by
  unfold row_env
  rw [if_neg (by simpa using h1), if_neg (by simpa using h2),
    if_neg (by simpa using h3)]

/-- A concrete matcher capability with no matches on any text. -/
def mZero : MentionMatchers := ⟨fun _ => 0, fun _ => 0, fun _ => 0⟩

/-- A concrete matcher capability where every text has one harmless-minority
match and one offensive-minority-reference match. -/
def mBoth : MentionMatchers := ⟨fun _ => 1, fun _ => 1, fun _ => 0⟩

/-- C3: in mention mode every row's group tag is the index of the first
word-list regex with at least one match, checked in the fixed order
harmless-minority (0), offensive-minority-reference (1),
offensive-not-minority (2), with 3 when none match; in particular a text
matching both the harmless-minority and the offensive-minority lists gets
group 0. First conjunct: the processor emits, for every row, an example whose
env is `mention_env` of its text; second conjunct: the priority order of
`mention_env`. -/
theorem c3_mention_priority :
    (∀ m st df, ∃ es,
       toxicEnv_create_examples m df st "mention" = Except.ok es ∧
       es.length = df.length ∧
       ∀ k (hk : k < es.length) (hk2 : k < df.length),
         (es.get ⟨k, hk⟩).env = some (mention_env m (df.get ⟨k, hk2⟩).tweet)) ∧
    (∀ m text,
       (0 < m.idtyRe text → mention_env m text = 0) ∧
       (m.idtyRe text = 0 → 0 < m.oiRe text → mention_env m text = 1) ∧
       (m.idtyRe text = 0 → m.oiRe text = 0 → 0 < m.oniRe text →
         mention_env m text = 2) ∧
       (m.idtyRe text = 0 → m.oiRe text = 0 → m.oniRe text = 0 →
         mention_env m text = 3) ∧
       (0 < m.idtyRe text → 0 < m.oiRe text → mention_env m text = 0)) := by
  constructor
  · intro m st df
    obtain ⟨es, h1, h2, h3⟩ :=
      envCreateAux_total_spec m st "mention" (fun line => mention_env m line.tweet)
        (fun line => row_env_mention m line) df 0
    refine ⟨es, h1, h2, ?_⟩
    intro k hk hk2
    rw [h3 k hk hk2]
  · intro m text
    unfold mention_env
    refine ⟨?_, ?_, ?_, ?_, ?_⟩
    · intro h
      rw [if_pos h]
    · intro h1 h2
      rw [if_neg (by omega), if_pos h2]
    · intro h1 h2 h3
      rw [if_neg (by omega), if_neg (by omega), if_pos h3]
    · intro h1 h2 h3
      rw [if_neg (by omega), if_neg (by omega), if_neg (by omega)]
    · intro h1 h2
      rw [if_pos h1]
/-- Witness for C3 at a concrete input: under the matcher `mBoth` (both the
harmless-minority and the offensive-minority list match every text) the
processor tags the single row with group 0. -/
theorem c3_mention_priority_witness :
    (∃ es, toxicEnv_create_examples mBoth [⟨"some text", 0, "aav"⟩] "train"
        "mention" = Except.ok es ∧ es.length = 1) ∧
    mention_env mBoth "some text" = 0 := by
  obtain ⟨es, h1, h2, _⟩ :=
    c3_mention_priority.1 mBoth "train" [⟨"some text", 0, "aav"⟩]
  exact ⟨⟨es, h1, h2⟩,
    (c3_mention_priority.2 mBoth "some text").2.2.2.2 (by decide) (by decide)⟩

/-- C4: in dialect mode every row's env is the direct `env2id` lookup of its
dialect field ({aav 0, hispanic 1, white 2, other 3}); concretely the row
(tweet "hello world", ND_label 0, dialect_argmax "white") yields the example
with label "0" and env 2. -/
theorem c4_dialect_lookup :
    (∀ m st df es, toxicEnv_create_examples m df st "dialect" = Except.ok es →
       es.length = df.length ∧
       ∀ k (hk : k < es.length) (hk2 : k < df.length),
         ∃ v, env2id ((df.get ⟨k, hk2⟩).dialect_argmax) = some v ∧
           es.get ⟨k, hk⟩ = ⟨mk_guid st k, (df.get ⟨k, hk2⟩).tweet, none,
             toString (df.get ⟨k, hk2⟩).ND_label, some v⟩) ∧
    (∀ m, toxicEnv_create_examples m [⟨"hello world", 0, "white"⟩] "train"
        "dialect" = Except.ok [⟨"train-0", "hello world", none, "0", some 2⟩]) := by
  constructor
  · intro m st df es h
    obtain ⟨h2, h3⟩ := envCreateAux_ok_spec m st "dialect" df 0 es h
    refine ⟨h2, ?_⟩
    intro k hk hk2
    obtain ⟨v, hv1, hv2⟩ := h3 k hk hk2
    exact ⟨v, (row_env_dialect_ok_iff m _ v).mp hv1, by simpa using hv2⟩
  · intro m
    rfl

/-- Witness for C4 at a concrete input: the single-row frame with dialect
"hispanic" is processed, and the first conjunct applied to it recovers the
lookup value 1. -/
theorem c4_dialect_lookup_witness :
    ∃ es, toxicEnv_create_examples mZero [⟨"hi", 1, "hispanic"⟩] "dev"
        "dialect" = Except.ok es ∧
      es.length = 1 ∧
      ∃ v, env2id "hispanic" = some v ∧
        ∃ hk : 0 < es.length, es.get ⟨0, hk⟩ = ⟨"dev-0", "hi", none, "1", some v⟩ := by
  have hok : toxicEnv_create_examples mZero [⟨"hi", 1, "hispanic"⟩] "dev"
      "dialect" = Except.ok [⟨"dev-0", "hi", none, "1", some 1⟩] := rfl
  obtain ⟨h2, h3⟩ := c4_dialect_lookup.1 mZero "dev" [⟨"hi", 1, "hispanic"⟩]
    [⟨"dev-0", "hi", none, "1", some 1⟩] hok
  obtain ⟨v, hv1, hv2⟩ := h3 0 (by simp) (by simp)
  have hv : v = 1 := by
    simpa [env2id] using hv1.symm
  subst hv
  exact ⟨[⟨"dev-0", "hi", none, "1", some 1⟩], hok, rfl, 1, hv1, by simp, hv2⟩

/-- C5: a dialect-mode row whose dialect value is outside the 4-entry mapping
makes the whole call raise (return an error, emitting nothing), and an
unrecognized mode string makes the call raise on any nonempty input; no
examples are silently emitted and no row is skipped. -/
theorem c5_env_fatal_errors :
    (∀ m st df, (∃ line ∈ df, env2id line.dialect_argmax = none) →
       ∃ msg, toxicEnv_create_examples m df st "dialect" = Except.error msg) ∧
    (∀ m st et df, et ≠ "dialect" → et ≠ "aae" → et ≠ "mention" → df ≠ [] →
       ∃ msg, toxicEnv_create_examples m df st et = Except.error msg) := by
  constructor
  · intro m st df ⟨line, hmem, hnone⟩
    exact envCreateAux_error_of_row_error m st "dialect" df 0
      ⟨line, hmem, _, row_env_dialect_error m line hnone⟩
  · intro m st et df h1 h2 h3 h4
    match df with
    | [] => exact absurd rfl h4
    | line :: rest =>
      exact envCreateAux_error_of_row_error m st et (line :: rest) 0
        ⟨line, by simp, _, row_env_bad_mode m et line h1 h2 h3⟩

/-- Witness for C5 at concrete inputs: dialect value "unknown_region" raises,
and the mode string "region" raises. -/
theorem c5_env_fatal_errors_witness :
    (∃ msg, toxicEnv_create_examples mZero [⟨"x", 0, "unknown_region"⟩] "train"
        "dialect" = Except.error msg) ∧
    (∃ msg, toxicEnv_create_examples mZero [⟨"x", 0, "aav"⟩] "train"
        "region" = Except.error msg) := by
  constructor
  · exact c5_env_fatal_errors.1 mZero "train" [⟨"x", 0, "unknown_region"⟩]
      ⟨⟨"x", 0, "unknown_region"⟩, by simp, by decide⟩
  · exact c5_env_fatal_errors.2 mZero "train" "region" [⟨"x", 0, "aav"⟩]
      (by decide) (by decide) (by decide) (by simp)

/-- C6 counterexample: the claim reads the AAE marker of aae mode as the same
dialect value that denotes African-American English in the dialect-mode
mapping. That value is "aav" (`env2id "aav" = some 0` is the mapping's AAE
entry), yet in aae mode a row with dialect "aav" gets env 0, not 1: the code
compares against the literal "aae", which is not a key of `env2id` at all. -/
theorem c6_counterexample_aav_marker :
    toxicEnv_create_examples mZero [⟨"x", 0, "aav"⟩] "train" "aae" =
      Except.ok [⟨"train-0", "x", none, "0", some 0⟩] ∧
    env2id "aav" = some 0 ∧ some (0 : Int) ≠ some (1 : Int) := by
  exact ⟨rfl, rfl, by decide⟩

/-- C6 (amended): in aae mode every row's env is 1 when the dialect field
equals the literal marker string "aae" and 0 otherwise; this marker is not a
key of the dialect-mode mapping (whose African-American English entry is
"aav"), so `env2id "aae" = none`. -/
theorem c6_aae_binary :
    (∀ m st df, ∃ es,
       toxicEnv_create_examples m df st "aae" = Except.ok es ∧
       es.length = df.length ∧
       ∀ k (hk : k < es.length) (hk2 : k < df.length),
         (es.get ⟨k, hk⟩).env =
           some (if (df.get ⟨k, hk2⟩).dialect_argmax = "aae" then 1 else 0)) ∧
    env2id "aae" = none := by
  constructor
  · intro m st df
    obtain ⟨es, h1, h2, h3⟩ :=
      envCreateAux_total_spec m st "aae"
        (fun line => if line.dialect_argmax = "aae" then 1 else 0)
        (fun line => row_env_aae m line) df 0
    refine ⟨es, h1, h2, ?_⟩
    intro k hk hk2
    rw [h3 k hk hk2]
  · rfl

/-- Witness for C6 (amended) at a concrete input: a two-row frame with
dialects "aae" and "white" gets env tags 1 and 0. -/
theorem c6_aae_binary_witness :
    ∃ es, toxicEnv_create_examples mZero [⟨"a", 0, "aae"⟩, ⟨"b", 1, "white"⟩]
        "test" "aae" = Except.ok es ∧
      es.length = 2 ∧
      ∃ hk : 0 < es.length, (es.get ⟨0, hk⟩).env = some 1 := by
  obtain ⟨es, h1, h2, h3⟩ :=
    c6_aae_binary.1 mZero "test" [⟨"a", 0, "aae"⟩, ⟨"b", 1, "white"⟩]
  have hk : 0 < es.length := by
    rw [h2]
    decide
  refine ⟨es, h1, h2, hk, ?_⟩
  have := h3 0 hk (by simp)
  simpa using this

/-! ## Encoder loop: one record per example, in order -/

lemma convert_ok_spec (cfg : EncodeConfig)
    (tok : String → Option String → Nat → List Int × List Int)
    (pf : String → Except String Float) :
    ∀ (es : List EnvInputExample) (fs : List InputFeatures),
      glue_convert_examples_to_features cfg tok pf es = Except.ok fs →
      fs.length = es.length ∧
      ∀ k (hk : k < fs.length) (hk2 : k < es.length),
        glue_convert_example cfg tok pf (es.get ⟨k, hk2⟩) =
          Except.ok (fs.get ⟨k, hk⟩) := by
  intro es
  induction es with
  | nil =>
    intro fs h
    cases h
    exact ⟨rfl, by intro k hk; simp at hk⟩
  | cons e rest ih =>
    intro fs h
    unfold glue_convert_examples_to_features at h
    split at h
    · simp at h
    split at h
    · simp at h
    rename_i f hf scrut2 fs2 hfs2
    cases h
    obtain ⟨h2, h3⟩ := ih fs2 hfs2
    refine ⟨by simpa using h2, ?_⟩
    intro k hk hk2
    match k with
    | 0 => simpa using hf
    | k + 1 =>
      have hk3 : k < fs2.length := by simpa using hk
      have hk4 : k < rest.length := by simpa using hk2
      simpa using h3 k hk3 hk4

lemma convert_total (cfg : EncodeConfig)
    (tok : String → Option String → Nat → List Int × List Int)
    (pf : String → Except String Float) :
    ∀ (es : List EnvInputExample),
      (∀ e ∈ es, ∃ f, glue_convert_example cfg tok pf e = Except.ok f) →
      ∃ fs, glue_convert_examples_to_features cfg tok pf es = Except.ok fs := by
  intro es
  induction es with
  | nil =>
    intro _
    exact ⟨[], rfl⟩
  | cons e rest ih =>
    intro h
    obtain ⟨f, hf⟩ := h e (by simp)
    obtain ⟨fs, hfs⟩ := ih (by intro x hx; exact h x (by simp [hx]))
    refine ⟨f :: fs, ?_⟩
    unfold glue_convert_examples_to_features
    rw [hf, hfs]

/-- C7: the feature encoder emits exactly one feature record per input
example, in input order, with no reordering, filtering or skipping: an ok
result has one record per example and the k-th record is the encoding of the
k-th example (first conjunct); and when every example encodes, the whole call
succeeds rather than dropping any example (second conjunct). -/
theorem c7_one_record_per_example :
    (∀ cfg tok pf es fs,
       glue_convert_examples_to_features cfg tok pf es = Except.ok fs →
       fs.length = es.length ∧
       ∀ k (hk : k < fs.length) (hk2 : k < es.length),
         glue_convert_example cfg tok pf (es.get ⟨k, hk2⟩) =
           Except.ok (fs.get ⟨k, hk⟩)) ∧
    (∀ cfg tok pf es,
       (∀ e ∈ es, ∃ f, glue_convert_example cfg tok pf e = Except.ok f) →
       ∃ fs, glue_convert_examples_to_features cfg tok pf es = Except.ok fs) :=
  ⟨fun cfg tok pf => convert_ok_spec cfg tok pf,
   fun cfg tok pf => convert_total cfg tok pf⟩

/-- Witness for C7 at a concrete input: the two-example list `[exC, exN]`
encodes to exactly two records in order under `cfgC`/`tokC`. -/
theorem c7_one_record_per_example_witness :
    ∃ fs, glue_convert_examples_to_features cfgC tokC pfC [exC, exN] =
        Except.ok fs ∧ fs.length = 2 := by
  obtain ⟨fs, hfs⟩ := c7_one_record_per_example.2 cfgC tokC pfC [exC, exN]
    (by
      intro e he
      rcases List.mem_cons.mp he with h | h
      · subst h
        exact ⟨_, rfl⟩
      · have h2 : e = exN := by simpa using h
        subst h2
        exact ⟨_, rfl⟩)
  exact ⟨fs, hfs, (c7_one_record_per_example.1 cfgC tokC pfC [exC, exN] fs hfs).1⟩

/-! ## Translated-pair processor -/

lemma transCreateAux_spec (lc : String → Except String String) (st : String) :
    ∀ (rows : List (List String)) (i : Nat), 1 ≤ i →
      (∀ r ∈ rows, 19 ≤ r.length ∧
        ∃ c3 lab, getCell r 3 = Except.ok c3 ∧ lc c3 = Except.ok lab) →
      ∃ es, transCreateAux lc st i rows = Except.ok es ∧
        es.length = 2 * rows.length ∧
        ∀ k (hk : k < rows.length) (hk1 : 2 * k < es.length)
            (hk2 : 2 * k + 1 < es.length),
          ∃ t17 t18 lab,
            getCell (rows.get ⟨k, hk⟩) 17 = Except.ok t17 ∧
            getCell (rows.get ⟨k, hk⟩) 18 = Except.ok t18 ∧
            (∃ c3, getCell (rows.get ⟨k, hk⟩) 3 = Except.ok c3 ∧
              lc c3 = Except.ok lab) ∧
            es.get ⟨2 * k, hk1⟩ = ⟨mk_guid st (i + k), t17, none, lab, none⟩ ∧
            es.get ⟨2 * k + 1, hk2⟩ = ⟨mk_guid st (i + k), t18, none, lab, none⟩ := by
  intro rows
  induction rows with
  | nil =>
    intro i _ _
    exact ⟨[], rfl, rfl, by intro k hk; simp at hk⟩
  | cons r rest ih =>
    intro i hi hall
    obtain ⟨hr19, c3, lab, hc3, hlab⟩ := hall r (by simp)
    have h17 : getCell r 17 = Except.ok (r.get ⟨17, by omega⟩) := by
      unfold getCell
      rw [dif_pos (show 17 < r.length by omega)]
    have h18 : getCell r 18 = Except.ok (r.get ⟨18, by omega⟩) := by
      unfold getCell
      rw [dif_pos (show 18 < r.length by omega)]
    obtain ⟨esR, hR1, hR2, hR3⟩ := ih (i + 1) (by omega)
      (by intro x hx; exact hall x (by simp [hx]))
    refine ⟨⟨mk_guid st i, r.get ⟨17, by omega⟩, none, lab, none⟩ ::
            ⟨mk_guid st i, r.get ⟨18, by omega⟩, none, lab, none⟩ :: esR, ?_, ?_, ?_⟩
    · unfold transCreateAux
      rw [if_neg (by omega)]
      simp only [h17, h18, hc3, hlab, hR1]
    · simp
      omega
    · intro k hk hk1 hk2
      match k with
      | 0 =>
        refine ⟨r.get ⟨17, by omega⟩, r.get ⟨18, by omega⟩, lab, by simpa using h17,
          by simpa using h18, ⟨c3, by simpa using hc3, hlab⟩, ?_, ?_⟩
        · simp
        · simp
      | k + 1 =>
        have hk3 : k < rest.length := by simpa using hk
        have hk4 : 2 * k < esR.length := by
          rw [hR2]
          omega
        have hk5 : 2 * k + 1 < esR.length := by
          rw [hR2]
          omega
        obtain ⟨t17, t18, lab2, g1, g2, g3, g4, g5⟩ := hR3 k hk3 hk4 hk5
        refine ⟨t17, t18, lab2, by simpa using g1, by simpa using g2,
          by simpa using g3, ?_, ?_⟩
        · simp only [show 2 * (k + 1) = 2 * k + 2 from by ring]
          have heq : (i + 1) + k = i + (k + 1) := by omega
          rw [← heq]
          exact g4
        · simp only [show 2 * (k + 1) + 1 = (2 * k + 1) + 2 from by ring]
          have heq : (i + 1) + k = i + (k + 1) := by omega
          rw [← heq]
          exact g5

/-- C8: for every non-header row of the translated-pair training file, the
processor emits exactly two consecutive examples, the original text
(positional column 17) first and the translation (column 18) second, both
carrying the same guid and the same label, the label coming from column 3
through the numeric conversion `str(int(float(...)))` (the `lc` capability). -/
theorem c8_trans_pairs (lc : String → Except String String) (st : String)
    (hdr : List String) (rows : List (List String))
    (hall : ∀ r ∈ rows, 19 ≤ r.length ∧
      ∃ c3 lab, getCell r 3 = Except.ok c3 ∧ lc c3 = Except.ok lab) :
    ∃ es, toxicTrans_create_examples_trans lc (hdr :: rows) st = Except.ok es ∧
      es.length = 2 * rows.length ∧
      ∀ k (hk : k < rows.length) (hk1 : 2 * k < es.length)
          (hk2 : 2 * k + 1 < es.length),
        ∃ t17 t18 lab,
          getCell (rows.get ⟨k, hk⟩) 17 = Except.ok t17 ∧
          getCell (rows.get ⟨k, hk⟩) 18 = Except.ok t18 ∧
          (∃ c3, getCell (rows.get ⟨k, hk⟩) 3 = Except.ok c3 ∧
            lc c3 = Except.ok lab) ∧
          es.get ⟨2 * k, hk1⟩ = ⟨mk_guid st (1 + k), t17, none, lab, none⟩ ∧
          es.get ⟨2 * k + 1, hk2⟩ = ⟨mk_guid st (1 + k), t18, none, lab, none⟩ := by
  have hskip : toxicTrans_create_examples_trans lc (hdr :: rows) st =
      transCreateAux lc st 1 rows := rfl
  rw [hskip]
  exact transCreateAux_spec lc st rows 1 (by omega) hall

/-- A concrete label-conversion capability (`str(int(float(s)))`) defined on
the decimal strings that appear in the witness data. -/
def lcC : String → Except String String :=
  fun s => if s = "1.0" then Except.ok "1" else Except.error "ValueError"

/-- A concrete 19-column data row for the translated-pair schema: label
column 3 holds "1.0", text column 17 holds "TEXT", column 18 "TRANS". -/
def row19 : List String :=
  ["c0", "c1", "c2", "1.0", "c4", "c5", "c6", "c7", "c8", "c9", "c10", "c11",
   "c12", "c13", "c14", "c15", "c16", "TEXT", "TRANS"]

/-- Witness for C8 at a concrete input: a header row plus one 19-column row
produces exactly two examples. -/
theorem c8_trans_pairs_witness :
    ∃ es, toxicTrans_create_examples_trans lcC [["h"], row19] "train" =
        Except.ok es ∧ es.length = 2 := by
  obtain ⟨es, h1, h2, _⟩ := c8_trans_pairs lcC "train" ["h"] [row19]
    (by
      intro r hr
      have hr2 : r = row19 := by simpa using hr
      subst hr2
      exact ⟨by decide, "1.0", "1", rfl, rfl⟩)
  exact ⟨es, h1, by simpa using h2⟩

/-! ## Prediction merger -/

lemma invAux_spec (preds : List (List String)) :
    ∀ (rows : List (List String)) (i : Nat), 1 ≤ i →
      (∀ k (hk : k < rows.length),
        ∃ (hp : i - 1 + k < preds.length) (p0 f1 f2 : String),
          getCell (preds.get ⟨i - 1 + k, hp⟩) 0 = Except.ok p0 ∧
          getCell (split_tab p0) 1 = Except.ok f1 ∧
          getCell (split_tab p0) 2 = Except.ok f2) →
      ∃ out, invAux preds i rows = Except.ok out ∧
        out.length = rows.length ∧
        ∀ k (hk1 : k < out.length) (hk2 : k < rows.length),
          ∃ (hp : i - 1 + k < preds.length) (p0 f1 f2 : String),
            getCell (preds.get ⟨i - 1 + k, hp⟩) 0 = Except.ok p0 ∧
            getCell (split_tab p0) 1 = Except.ok f1 ∧
            getCell (split_tab p0) 2 = Except.ok f2 ∧
            out.get ⟨k, hk1⟩ = rows.get ⟨k, hk2⟩ ++ [f1, f2] := by
  intro rows
  induction rows with
  | nil =>
    intro i _ _
    exact ⟨[], rfl, rfl, by intro k hk; simp at hk⟩
  | cons row rest ih =>
    intro i hi hall
    obtain ⟨hp, p0, f1, f2, hc0, hf1, hf2⟩ := hall 0 (by simp)
    obtain ⟨out, hO1, hO2, hO3⟩ := ih (i + 1) (by omega)
      (by
        intro k hk
        have heq : i + 1 - 1 + k = i - 1 + (k + 1) := by omega
        rw [heq]
        exact hall (k + 1) (by simpa using hk))
    have hp0 : i - 1 < preds.length := hp
    have hc00 : getCell (preds.get ⟨i - 1, hp0⟩) 0 = Except.ok p0 := hc0
    refine ⟨(row ++ [f1, f2]) :: out, ?_, by simpa using hO2, ?_⟩
    · unfold invAux
      simp only [dif_pos hp0, hc00, hf1, hf2, hO1]
    · intro k hk1 hk2
      match k with
      | 0 => exact ⟨hp, p0, f1, f2, hc0, hf1, hf2, by simp⟩
      | k + 1 =>
        have hk3 : k < out.length := by simpa using hk1
        have hk4 : k < rest.length := by simpa using hk2
        obtain ⟨hp2, p02, f12, f22, g0, g1, g2, g3⟩ := hO3 k hk3 hk4
        have heq : i - 1 + (k + 1) = i + 1 - 1 + k := by omega
        rw [heq]
        exact ⟨hp2, p02, f12, f22, g0, g1, g2, by simpa using g3⟩

/-- C9: the prediction merger writes an output whose header row is the input
header with "invariant" and "variant" appended, and whose record row `i` (for
`i` from 1 on) is input row `i` with the tab-separated fields 1 and 2 of
prediction line `i-1` appended, lining rows up positionally. -/
theorem c9_merge_columns (preds : List (List String)) (hdr : List String)
    (rows : List (List String))
    (hall : ∀ k (hk : k < rows.length),
      ∃ (hp : k < preds.length) (p0 f1 f2 : String),
        getCell (preds.get ⟨k, hp⟩) 0 = Except.ok p0 ∧
        getCell (split_tab p0) 1 = Except.ok f1 ∧
        getCell (split_tab p0) 2 = Except.ok f2) :
    ∃ out, inv_to_ND preds (hdr :: rows) = Except.ok out ∧
      out.length = rows.length + 1 ∧
      (∃ h0 : 0 < out.length,
        out.get ⟨0, h0⟩ = hdr ++ ["invariant", "variant"]) ∧
      ∀ k (hk1 : k + 1 < out.length) (hk2 : k < rows.length),
        ∃ (hp : k < preds.length) (p0 f1 f2 : String),
          getCell (preds.get ⟨k, hp⟩) 0 = Except.ok p0 ∧
          getCell (split_tab p0) 1 = Except.ok f1 ∧
          getCell (split_tab p0) 2 = Except.ok f2 ∧
          out.get ⟨k + 1, hk1⟩ = rows.get ⟨k, hk2⟩ ++ [f1, f2] := by
  obtain ⟨out2, h1, h2, h3⟩ := invAux_spec preds rows 1 (by omega)
    (by
      intro k hk
      simp only [show 1 - 1 + k = k from by omega]
      exact hall k hk)
  refine ⟨(hdr ++ ["invariant", "variant"]) :: out2, ?_, by simp [h2], ⟨by simp, by simp⟩, ?_⟩
  · unfold inv_to_ND
    simp only [h1]
  · intro k hk1 hk2
    have hk3 : k < out2.length := by simpa using hk1
    have h3k := h3 k hk3 hk2
    simp only [show 1 - 1 + k = k from by omega] at h3k
    obtain ⟨hp, p0, f1, f2, g0, g1, g2, g3⟩ := h3k
    exact ⟨hp, p0, f1, f2, g0, g1, g2, by simpa using g3⟩

/-- Witness for C9 at a concrete input: predictions `[["a\tb\tc"]]` and base
CSV `[["h1"], ["r1"]]` merge to two rows, the header gaining the two column
names and the record row gaining fields "b" and "c". -/
theorem c9_merge_columns_witness :
    ∃ out, inv_to_ND [["a\tb\tc"]] [["h1"], ["r1"]] = Except.ok out ∧
      out.length = 2 := by
  obtain ⟨out, h1, h2, _⟩ := c9_merge_columns [["a\tb\tc"]] ["h1"] [["r1"]]
    (by
      intro k hk
      have hk0 : k = 0 := by simpa using hk
      subst hk0
      exact ⟨by decide, "a\tb\tc", "b", "c", rfl, rfl, rfl⟩)
  exact ⟨out, h1, by simpa using h2⟩

/-! ## Guid numbering across processor variants -/

lemma toxicCreateAux_ok_guids (st : String) :
    ∀ (rows : List (List String)) (i : Nat) (es : List EnvInputExample),
      1 ≤ i → toxicCreateAux st i rows = Except.ok es →
      es.length = rows.length ∧
      ∀ k (hk : k < es.length), (es.get ⟨k, hk⟩).guid = mk_guid st (i + k) := by
  intro rows
  induction rows with
  | nil =>
    intro i es _ h
    cases h
    exact ⟨rfl, by intro k hk; simp at hk⟩
  | cons line rest ih =>
    intro i es hi h
    unfold toxicCreateAux at h
    rw [if_neg (by omega)] at h
    rcases hg2 : getCellNeg line 2 with s2 | t2 <;> simp only [hg2] at h
    · simp at h
    rcases hg1 : getCellNeg line 1 with s1 | t1 <;> simp only [hg1] at h
    · simp at h
    rcases hrec : toxicCreateAux st (i + 1) rest with s | esR <;>
      simp only [hrec] at h
    · simp at h
    cases h
    obtain ⟨hL, hG⟩ := ih (i + 1) esR (by omega) hrec
    refine ⟨by simpa using hL, ?_⟩
    intro k hk
    match k with
    | 0 => simp
    | k + 1 =>
      have hk3 : k < esR.length := by simpa using hk
      have := hG k hk3
      simpa [Nat.add_assoc, Nat.add_comm 1 k] using this

lemma transCreateAux_ok_guids (lc : String → Except String String) (st : String) :
    ∀ (rows : List (List String)) (i : Nat) (es : List EnvInputExample),
      1 ≤ i → transCreateAux lc st i rows = Except.ok es →
      es.length = 2 * rows.length ∧
      ∀ k (hk1 : 2 * k < es.length) (hk2 : 2 * k + 1 < es.length),
        (es.get ⟨2 * k, hk1⟩).guid = mk_guid st (i + k) ∧
        (es.get ⟨2 * k + 1, hk2⟩).guid = mk_guid st (i + k) := by
  intro rows
  induction rows with
  | nil =>
    intro i es _ h
    cases h
    exact ⟨rfl, by intro k hk; simp at hk⟩
  | cons line rest ih =>
    intro i es hi h
    unfold transCreateAux at h
    rw [if_neg (by omega)] at h
    rcases hg17 : getCell line 17 with s | t17 <;> simp only [hg17] at h
    · simp at h
    rcases hg18 : getCell line 18 with s | t18 <;> simp only [hg18] at h
    · simp at h
    rcases hg3 : getCell line 3 with s | c3 <;> simp only [hg3] at h
    · simp at h
    rcases hlc : lc c3 with s | lab <;> simp only [hlc] at h
    · simp at h
    rcases hrec : transCreateAux lc st (i + 1) rest with s | esR <;>
      simp only [hrec] at h
    · simp at h
    cases h
    obtain ⟨hL, hG⟩ := ih (i + 1) esR (by omega) hrec
    refine ⟨by simp [hL]; omega, ?_⟩
    intro k hk1 hk2
    match k with
    | 0 => exact ⟨by simp, by simp⟩
    | k + 1 =>
      have hk3 : 2 * k < esR.length := by
        simp only [show 2 * (k + 1) = 2 * k + 2 from by ring] at hk1
        simpa using hk1
      have hk4 : 2 * k + 1 < esR.length := by
        simp only [show 2 * (k + 1) + 1 = (2 * k + 1) + 2 from by ring] at hk2
        simpa using hk2
      obtain ⟨g1, g2⟩ := hG k hk3 hk4
      constructor
      · simp only [show 2 * (k + 1) = 2 * k + 2 from by ring]
        have heq : (i + 1) + k = i + (k + 1) := by omega
        rw [← heq]
        exact g1
      · simp only [show 2 * (k + 1) + 1 = (2 * k + 1) + 2 from by ring]
        have heq : (i + 1) + k = i + (k + 1) := by omega
        rw [← heq]
        exact g2

lemma evalCreateAux_ok_guids (st : String) :
    ∀ (rows : List (List String)) (i : Nat) (es : List EnvInputExample),
      1 ≤ i → evalCreateAux st i rows = Except.ok es →
      es.length = 2 * rows.length ∧
      ∀ k (hk1 : 2 * k < es.length) (hk2 : 2 * k + 1 < es.length),
        (es.get ⟨2 * k, hk1⟩).guid = mk_guid st (i + k) ∧
        (es.get ⟨2 * k + 1, hk2⟩).guid = mk_guid st (i + k) := by
  intro rows
  induction rows with
  | nil =>
    intro i es _ h
    cases h
    exact ⟨rfl, by intro k hk; simp at hk⟩
  | cons line rest ih =>
    intro i es hi h
    unfold evalCreateAux at h
    rw [if_neg (by omega)] at h
    rcases hg9 : getCell line 9 with s | t9 <;> simp only [hg9] at h
    · simp at h
    rcases hg11 : getCell line 11 with s | t11 <;> simp only [hg11] at h
    · simp at h
    rcases hg10 : getCell line 10 with s | t10 <;> simp only [hg10] at h
    · simp at h
    rcases hrec : evalCreateAux st (i + 1) rest with s | esR <;>
      simp only [hrec] at h
    · simp at h
    cases h
    obtain ⟨hL, hG⟩ := ih (i + 1) esR (by omega) hrec
    refine ⟨by simp [hL]; omega, ?_⟩
    intro k hk1 hk2
    match k with
    | 0 => exact ⟨by simp, by simp⟩
    | k + 1 =>
      have hk3 : 2 * k < esR.length := by
        simp only [show 2 * (k + 1) = 2 * k + 2 from by ring] at hk1
        simpa using hk1
      have hk4 : 2 * k + 1 < esR.length := by
        simp only [show 2 * (k + 1) + 1 = (2 * k + 1) + 2 from by ring] at hk2
        simpa using hk2
      obtain ⟨g1, g2⟩ := hG k hk3 hk4
      constructor
      · simp only [show 2 * (k + 1) = 2 * k + 2 from by ring]
        have heq : (i + 1) + k = i + (k + 1) := by omega
        rw [← heq]
        exact g1
      · simp only [show 2 * (k + 1) + 1 = (2 * k + 1) + 2 from by ring]
        have heq : (i + 1) + k = i + (k + 1) := by omega
        rw [← heq]
        exact g2

lemma toxicNewCreateAux_guids (st : String) :
    ∀ (df : List DataRow) (i : Nat),
      (toxicNewCreateAux st i df).length = df.length ∧
      ∀ k (hk : k < (toxicNewCreateAux st i df).length),
        ((toxicNewCreateAux st i df).get ⟨k, hk⟩).guid = mk_guid st (i + k) := by
  intro df
  induction df with
  | nil => exact fun i => ⟨rfl, by intro k hk; simp [toxicNewCreateAux] at hk⟩
  | cons line rest ih =>
    intro i
    obtain ⟨hL, hG⟩ := ih (i + 1)
    refine ⟨by simpa [toxicNewCreateAux] using hL, ?_⟩
    intro k hk
    match k with
    | 0 => simp [toxicNewCreateAux]
    | k + 1 =>
      have hk3 : k < (toxicNewCreateAux st (i + 1) rest).length := by
        simpa [toxicNewCreateAux] using hk
      have := hG k hk3
      simpa [toxicNewCreateAux, Nat.add_assoc, Nat.add_comm 1 k] using this

/-- C10: guid row indices differ across processor variants. Positional/legacy
(`ToxicProcessor`), translated-pair (`ToxicTransProcessor`) and evaluation
(`ToxicEvalProcessor`) count the header as row 0, so the k-th emitted
row-group (0-based k) carries guid index k+1 and the first emitted example has
guid "{split}-1"; the labeled-column variants (`ToxicNewProcessor`, and
`ToxicDavisonProcessor` which shares its loop verbatim, and
`ToxicEnvProcessor`) enumerate data rows from 0, so the k-th emitted example
has guid index k and the first has guid "{split}-0". -/
theorem c10_guid_numbering :
    (∀ st hdr rows es, toxic_create_examples (hdr :: rows) st = Except.ok es →
       es.length = rows.length ∧
       ∀ k (hk : k < es.length), (es.get ⟨k, hk⟩).guid = mk_guid st (k + 1)) ∧
    (∀ lc st hdr rows es,
       toxicTrans_create_examples_trans lc (hdr :: rows) st = Except.ok es →
       es.length = 2 * rows.length ∧
       ∀ k (hk1 : 2 * k < es.length) (hk2 : 2 * k + 1 < es.length),
         (es.get ⟨2 * k, hk1⟩).guid = mk_guid st (k + 1) ∧
         (es.get ⟨2 * k + 1, hk2⟩).guid = mk_guid st (k + 1)) ∧
    (∀ st hdr rows es, toxicEval_create_examples (hdr :: rows) st = Except.ok es →
       es.length = 2 * rows.length ∧
       ∀ k (hk1 : 2 * k < es.length) (hk2 : 2 * k + 1 < es.length),
         (es.get ⟨2 * k, hk1⟩).guid = mk_guid st (k + 1) ∧
         (es.get ⟨2 * k + 1, hk2⟩).guid = mk_guid st (k + 1)) ∧
    (∀ st df k (hk : k < (toxicNew_create_examples df st).length),
       ((toxicNew_create_examples df st).get ⟨k, hk⟩).guid = mk_guid st k) ∧
    (∀ m st et df es, toxicEnv_create_examples m df st et = Except.ok es →
       ∀ k (hk : k < es.length) (hk2 : k < df.length),
         (es.get ⟨k, hk⟩).guid = mk_guid st k) := by
  refine ⟨?_, ?_, ?_, ?_, ?_⟩
  · intro st hdr rows es h
    have h2 : toxicCreateAux st 1 rows = Except.ok es := h
    obtain ⟨hL, hG⟩ := toxicCreateAux_ok_guids st rows 1 es (by omega) h2
    refine ⟨hL, ?_⟩
    intro k hk
    have := hG k hk
    rwa [show 1 + k = k + 1 from by omega] at this
  · intro lc st hdr rows es h
    have h2 : transCreateAux lc st 1 rows = Except.ok es := h
    obtain ⟨hL, hG⟩ := transCreateAux_ok_guids lc st rows 1 es (by omega) h2
    refine ⟨hL, ?_⟩
    intro k hk1 hk2
    obtain ⟨g1, g2⟩ := hG k hk1 hk2
    rw [show 1 + k = k + 1 from by omega] at g1 g2
    exact ⟨g1, g2⟩
  · intro st hdr rows es h
    have h2 : evalCreateAux st 1 rows = Except.ok es := h
    obtain ⟨hL, hG⟩ := evalCreateAux_ok_guids st rows 1 es (by omega) h2
    refine ⟨hL, ?_⟩
    intro k hk1 hk2
    obtain ⟨g1, g2⟩ := hG k hk1 hk2
    rw [show 1 + k = k + 1 from by omega] at g1 g2
    exact ⟨g1, g2⟩
  · intro st df k hk
    have := (toxicNewCreateAux_guids st df 0).2 k hk
    simpa using this
  · intro m st et df es h k hk hk2
    obtain ⟨hL, hG⟩ := envCreateAux_ok_spec m st et df 0 es h
    obtain ⟨v, _, hv⟩ := hG k hk hk2
    rw [hv]
    simp

/-- Witness for C10 at concrete inputs: the positional variant numbers its
first emitted example "train-1" while the labeled-column variant numbers its
first "train-0". -/
theorem c10_guid_numbering_witness :
    (∃ es, toxic_create_examples [["h0", "h1"], ["a", "b"]] "train" =
        Except.ok es ∧ es.length = 1 ∧
      ∃ hk : 0 < es.length, (es.get ⟨0, hk⟩).guid = "train-1") ∧
    (∃ hk : 0 < (toxicNew_create_examples [⟨"t", 0, "aav"⟩] "train").length,
      ((toxicNew_create_examples [⟨"t", 0, "aav"⟩] "train").get ⟨0, hk⟩).guid =
        "train-0") := by
  constructor
  · have hok : toxic_create_examples [["h0", "h1"], ["a", "b"]] "train" =
        Except.ok [⟨"train-1", "a", none, "b", none⟩] := rfl
    obtain ⟨hL, hG⟩ := c10_guid_numbering.1 "train" ["h0", "h1"] [["a", "b"]]
      [⟨"train-1", "a", none, "b", none⟩] hok
    exact ⟨[⟨"train-1", "a", none, "b", none⟩], hok, rfl, by simp, hG 0 (by simp)⟩
  · have hk : 0 < (toxicNew_create_examples [⟨"t", 0, "aav"⟩] "train").length := by
      simp [toxicNew_create_examples, toxicNewCreateAux]
    exact ⟨hk, c10_guid_numbering.2.2.2.1 "train" [⟨"t", 0, "aav"⟩] 0 hk⟩
